import Mathlib

/-!
Verification development for the WhatsApp media-retrieval bot
(np4abdou/whats-app-cloud-scrap).

Shallow embedding of the conversational state machine, the progress
line parsers, the progress reporters, the concurrency throttle, the
episode-range resolver and the batch dispatcher, translated from the
JavaScript source (src/features/progress.js, src/features/youtube.js,
src/features/music.js, the performance manager, the anime handler and
src/bot.js).  Strings are lists of characters, JS numbers holding
percentages are exact rationals, timestamps are naturals, and the
messaging transport is an explicit world with per-call success
behaviour.
-/

namespace WABot

/-- Characters of a JS string. -/
abbrev Str := List Char

/-- Coerce a Lean string literal to the character-list representation. -/
def str (s : String) : Str := s.toList

/-- Is `p` a leading fragment of `l`?  (Used to implement substring search;
mirrors the character-by-character scan of `String.prototype.includes`.) -/
def leadsList : Str → Str → Bool
  | [], _ => true
  | _ :: _, [] => false
  | a :: p, b :: l => a = b && leadsList p l

/-- JS `line.includes(pat)`: `pat` occurs contiguously somewhere in `l`. -/
def containsL : Str → Str → Bool
  | l, pat =>
    leadsList pat l ||
      match l with
      | [] => false
      | _ :: t => containsL t pat

/-- Split the maximal run of decimal digits off the front (the greedy
`\d+` / `\d*` step of the regex engine). -/
def takeDigits : Str → Str × Str
  | [] => ([], [])
  | c :: t =>
    if c.isDigit then
      let (d, r) := takeDigits t
      (c :: d, r)
    else ([], c :: t)

/-- JS `\s` on the characters these lines can contain. -/
def isWsC (c : Char) : Bool :=
  c = ' ' || c = '\t' || c = '\n' || c = '\r' || c = '\x0b' || c = '\x0c'

/-- Split the maximal run of whitespace off the front (greedy `\s+`). -/
def takeWs : Str → Str × Str
  | [] => ([], [])
  | c :: t =>
    if isWsC c then
      let (d, r) := takeWs t
      (c :: d, r)
    else ([], c :: t)

/-- A `[0-9.]` character. -/
def isNumDot (c : Char) : Bool := c.isDigit || c = '.'

/-- Split the maximal run of `[0-9.]` characters off the front. -/
def takeNumDot : Str → Str × Str
  | [] => ([], [])
  | c :: t =>
    if isNumDot c then
      let (d, r) := takeNumDot t
      (c :: d, r)
    else ([], c :: t)

/-- Numeric value of a digit run (the integer part of `parseFloat`). -/
def digitsVal (l : Str) : ℕ :=
  l.foldl (fun a c => a * 10 + (c.toNat - '0'.toNat)) 0

/-- `Number.parseFloat` on a token captured by `(\d+\.?\d*)`: the token is
a digit run, optionally followed by a dot and a digit run, and denotes an
exact decimal, modelled as a rational. -/
def capToRat (cap : Str) : ℚ :=
  let intPart := cap.takeWhile (fun c => c.isDigit)
  let rest := cap.dropWhile (fun c => c.isDigit)
  match rest with
  | '.' :: frac => (digitsVal intPart : ℚ) + (digitsVal frac : ℚ) / (10 ^ frac.length)
  | _ => (digitsVal intPart : ℚ)

/-- Match `(\d+\.?\d*)%` anchored at the head of `l`, returning the capture.
The percent sign must directly follow the number, so the backtracking of the
JS engine degenerates to this deterministic greedy scan. -/
def percentAt (l : Str) : Option Str :=
  let (d1, r1) := takeDigits l
  if d1 = [] then none
  else
    match r1 with
    | '%' :: _ => some d1
    | '.' :: r2 =>
      let (d2, r3) := takeDigits r2
      match r3 with
      | '%' :: _ => some (d1 ++ '.' :: d2)
      | _ => none
    | _ => none

/-- `line.match(/(\d+\.?\d*)%/)`: leftmost occurrence wins. -/
def findPercent : Str → Option Str
  | [] => none
  | c :: t =>
    match percentAt (c :: t) with
    | some cap => some cap
    | none => findPercent t

/-- After a `[0-9.]+` run, match `[KMGT]?iB` and return the unit characters. -/
def unitAt (r : Str) : Option Str :=
  match r with
  | c :: 'i' :: 'B' :: _ =>
    if c = 'K' || c = 'M' || c = 'G' || c = 'T' then some [c, 'i', 'B']
    else if c = 'i' then none else none
  | 'i' :: 'B' :: _ => some ['i', 'B']
  | _ => none

/-- Match `of\s+([0-9.]+[KMGT]?iB)` anchored at the head of `l`. -/
def sizeAt (l : Str) : Option Str :=
  match l with
  | 'o' :: 'f' :: r =>
    let (w, r1) := takeWs r
    if w = [] then none
    else
      let (num, r2) := takeNumDot r1
      if num = [] then none
      else
        match unitAt r2 with
        | some u => some (num ++ u)
        | none => none
  | _ => none

/-- `line.match(/of\s+([0-9.]+[KMGT]?iB)/)`. -/
def findSize : Str → Option Str
  | [] => none
  | c :: t =>
    match sizeAt (c :: t) with
    | some cap => some cap
    | none => findSize t

/-- Match `(\d+\.?\d*[KMGT]?iB)\s+of` anchored at the head of `l`. -/
def dlAt (l : Str) : Option Str :=
  let (d1, r1) := takeDigits l
  if d1 = [] then none
  else
    let numRest : Str × Str :=
      match r1 with
      | '.' :: rr =>
        let (d2, r3) := takeDigits rr
        (d1 ++ '.' :: d2, r3)
      | _ => (d1, r1)
    match unitAt numRest.2 with
    | some u =>
      let (w, r4) := takeWs (numRest.2.drop u.length)
      if w = [] then none
      else
        match r4 with
        | 'o' :: 'f' :: _ => some (numRest.1 ++ u)
        | _ => none
    | none => none

/-- `line.match(/(\d+\.?\d*[KMGT]?iB)\s+of/)`. -/
def findDownloaded : Str → Option Str
  | [] => none
  | c :: t =>
    match dlAt (c :: t) with
    | some cap => some cap
    | none => findDownloaded t

/-- Match `at\s+([0-9.]+[KMGT]?iB\/s)` anchored at the head of `l`. -/
def speedAt (l : Str) : Option Str :=
  match l with
  | 'a' :: 't' :: r =>
    let (w, r1) := takeWs r
    if w = [] then none
    else
      let (num, r2) := takeNumDot r1
      if num = [] then none
      else
        match unitAt r2 with
        | some u =>
          match r2.drop u.length with
          | '/' :: 's' :: _ => some (num ++ u ++ ['/', 's'])
          | _ => none
        | none => none
  | _ => none

/-- `line.match(/at\s+([0-9.]+[KMGT]?iB\/s)/)`. -/
def findSpeed : Str → Option Str
  | [] => none
  | c :: t =>
    match speedAt (c :: t) with
    | some cap => some cap
    | none => findSpeed t

/-- A `[0-9:]` character. -/
def isDigitColon (c : Char) : Bool := c.isDigit || c = ':'

/-- Split the maximal run of `[0-9:]` characters off the front. -/
def takeDigitColon : Str → Str × Str
  | [] => ([], [])
  | c :: t =>
    if isDigitColon c then
      let (d, r) := takeDigitColon t
      (c :: d, r)
    else ([], c :: t)

/-- Match `ETA\s+([0-9:]+)` anchored at the head of `l`. -/
def etaAt (l : Str) : Option Str :=
  match l with
  | 'E' :: 'T' :: 'A' :: r =>
    let (w, r1) := takeWs r
    if w = [] then none
    else
      let (num, _) := takeDigitColon r1
      if num = [] then none else some num
  | _ => none

/-- `line.match(/ETA\s+([0-9:]+)/)`. -/
def findEta : Str → Option Str
  | [] => none
  | c :: t =>
    match etaAt (c :: t) with
    | some cap => some cap
    | none => findEta t

/-- Two-digit zero padding, as `toString().padStart(2, "0")`. -/
def pad2 (n : ℕ) : Str :=
  let ds := Nat.toDigits 10 n
  if ds.length < 2 then '0' :: ds else ds

/-- `mm:ss` elapsed-time rendering used by the parsers. -/
def fmtElapsed (now startTime : ℕ) : Str :=
  let elapsed := (now - startTime) / 1000
  pad2 (elapsed / 60) ++ ':' :: pad2 (elapsed % 60)

/-! ## Progress line parsers -/

/-- A structured progress sample: the object passed to
`updateYouTubeProgress` / `updateProgress`, and the shape of the
tracker's `youtubeProgress` / `progressData` field. -/
structure Sample where
  progress : ℚ
  total_size : Str
  downloaded_size : Str
  speed : Str
  eta : Str
  time_elapsed : Str
deriving DecidableEq, Repr

/-- The zeroed sample both tracker constructors start from. -/
def Sample.init : Sample :=
  { progress := 0, total_size := [], downloaded_size := [], speed := [],
    eta := [], time_elapsed := [] }

/-- `parseYouTubeProgress(line, progressTracker)` from
src/features/progress.js (and its verbatim copy in
src/features/youtube.js; the only difference is the name of the tracker
field holding the last sample).  `last` is the tracker's recorded
percentage (`progressTracker.youtubeProgress.progress` resp.
`progressTracker.progressData.progress`); the result is the sample passed
to the tracker's update method, or `none` when no update call is made.
`now`/`startTime` feed the elapsed-time field. -/
def parseYouTubeProgress (now startTime : ℕ) (last : ℚ) (line : Str) :
    Option Sample :=
  if containsL line (str "[download]") && containsL line (str "%") then
    if containsL line (str "fragment") || containsL line (str "audio only") then
      none
    else
      match findPercent line with
      | none => none
      | some cap =>
        let progress := capToRat cap
        if 100 ≤ progress ∧ 100 ≤ last then none
        else
          let total_size := (findSize line).getD []
          let downloaded_size := (findDownloaded line).getD []
          let speed := (findSpeed line).getD []
          let eta := (findEta line).getD []
          let time_elapsed := fmtElapsed now startTime
          if total_size ≠ [] ∧ last < progress then
            some { progress, total_size, downloaded_size, speed, eta,
                   time_elapsed }
          else none
  else none

/-- `parseMusicProgress(line, progressTracker)` from src/features/music.js.
Differences from the YouTube parser: no `audio only` filter, and a second,
unconditional block that emits a synthetic 95% / `Converting...` sample when
the line carries the ffmpeg post-processing marker.  The result lists the
`updateProgress` calls made for the line, in order. -/
def parseMusicProgress (now startTime : ℕ) (last : ℚ) (line : Str) :
    List Sample :=
  let fromDownload : Option Sample :=
    if containsL line (str "[download]") && containsL line (str "%") then
      if containsL line (str "fragment") then none
      else
        match findPercent line with
        | none => none
        | some cap =>
          let progress := capToRat cap
          if 100 ≤ progress ∧ 100 ≤ last then none
          else
            let total_size := (findSize line).getD []
            let downloaded_size := (findDownloaded line).getD []
            let speed := (findSpeed line).getD []
            let eta := (findEta line).getD []
            let time_elapsed := fmtElapsed now startTime
            if total_size ≠ [] ∧ last < progress then
              some { progress, total_size, downloaded_size, speed, eta,
                     time_elapsed }
            else none
    else none
  let fromFfmpeg : List Sample :=
    if containsL line (str "[ffmpeg]") && containsL line (str "Destination:") then
      [{ progress := 95, total_size := str "Converting...",
         downloaded_size := [], speed := [], eta := str "Almost done",
         time_elapsed := [] }]
    else []
  fromDownload.toList ++ fromFfmpeg

/-- Recorded percentage after one line: the tracker merges an accepted
sample wholesale (`updateYouTubeProgress` spreads the sample over
`youtubeProgress`), otherwise nothing changes. -/
def stepProgress (startTime : ℕ) (p : ℚ) (tl : ℕ × Str) : ℚ :=
  match parseYouTubeProgress tl.1 startTime p tl.2 with
  | some s => s.progress
  | none => p

/-- Recorded-percentage trace over a raw output sequence (each line paired
with its arrival clock), the initial value first. -/
def progressTrace (startTime : ℕ) (p : ℚ) : List (ℕ × Str) → List ℚ
  | [] => [p]
  | tl :: rest => p :: progressTrace startTime (stepProgress startTime p tl) rest

example :
    parseYouTubeProgress 5000 0 0
      (str "[download]  45% of 10MiB at 2MiB/s ETA 00:30") =
    some { progress := 45, total_size := str "10MiB", downloaded_size := [],
           speed := str "2MiB/s", eta := str "00:30",
           time_elapsed := str "00:05" } := by decide

example :
    parseYouTubeProgress 5000 0 0
      (str "[download]  45% of 10MiB (frag 3/10)") =
    some { progress := 45, total_size := str "10MiB", downloaded_size := [],
           speed := [], eta := [], time_elapsed := str "00:05" } := by decide

example :
    parseYouTubeProgress 5000 0 50 (str "[ffmpeg] Destination: song.mp3") =
      none := by decide

example :
    parseMusicProgress 5000 0 50 (str "[ffmpeg] Destination: song.mp3") =
      [{ progress := 95, total_size := str "Converting...",
         downloaded_size := [], speed := [], eta := str "Almost done",
         time_elapsed := [] }] := by decide

/-! ## Transport world

The Baileys socket is a black box exposing `sendMessage` for plain sends
and for `{ delete: id }` tombstones.  Both are asynchronous and fallible;
the world records, per call, whether the transport throws, and keeps a
ghost log of transmitted status messages and of the tracked status
messages still visible (sent and not yet deleted). -/

structure World where
  sendB : ℕ → Bool
  delB : ℕ → Bool
  sends : ℕ
  dels : ℕ
  sent : List ℕ
  live : List ℕ

/-- A fresh world with the given per-call transport behaviour. -/
def World.init (sendB delB : ℕ → Bool) : World :=
  { sendB, delB, sends := 0, dels := 0, sent := [], live := [] }

/-- One `sock.sendMessage(jid, { text })` call.  On success the message id
is the send counter; `tracked` marks status messages whose visibility the
reporter invariant is about. -/
def opSend (tracked : Bool) (w : World) : Option ℕ × World :=
  let n := w.sends
  if w.sendB n then
    (some n,
      { w with sends := n + 1, sent := w.sent ++ [n],
               live := if tracked then w.live ++ [n] else w.live })
  else (none, { w with sends := n + 1 })

/-- One `sock.sendMessage(jid, { delete: id })` call. -/
def opDelete (id : ℕ) (w : World) : Option Unit × World :=
  let n := w.dels
  if w.delB n then
    (some (), { w with dels := n + 1, live := w.live.erase id })
  else (none, { w with dels := n + 1 })

/-! ## ProgressTracker (src/features/progress.js) -/

/-- Mutable fields of `ProgressTracker` that the update/finish paths read
or write.  `lastProgressMessage` keeps the sample the last transmitted
text rendered (the code only ever branches on its presence). -/
structure ProgressTracker where
  totalItems : ℕ
  completed : ℕ
  failed : ℕ
  currentItem : Option Str
  currentSessionId : Option Str
  startTime : ℕ
  lastUpdate : ℕ
  lastProgressMessageId : Option ℕ
  lastProgressMessage : Option Sample
  lastProgressPercentage : ℚ
  isYouTube : Bool
  youtubeProgress : Sample

/-- The constructor's initial state. -/
def ProgressTracker.mk0 (totalItems startTime : ℕ) : ProgressTracker :=
  { totalItems, completed := 0, failed := 0, currentItem := none,
    currentSessionId := none, startTime, lastUpdate := 0,
    lastProgressMessageId := none, lastProgressMessage := none,
    lastProgressPercentage := 0, isYouTube := false,
    youtubeProgress := Sample.init }

/-- The progress source `sendProgressUpdate` reads: the in-memory YouTube
sample, or the side-channel file keyed by `currentSessionId` (passed in as
`pythonPd`; `getPythonProgress` itself swallows read errors into `null`). -/
def pdSource (t : ProgressTracker) (pythonPd : Option Sample) : Option Sample :=
  if t.isYouTube then some t.youtubeProgress
  else
    match t.currentSessionId with
    | some _ => pythonPd
    | none => none

/-- Body of `sendProgressUpdate`'s `try` block: guards, best-effort delete
of the previous live message, send, record.  `.error` marks the one point
where the transport can throw out of the block (the new send; the delete
has its own inner `try`). -/
def ProgressTracker.sendAttempt (t : ProgressTracker) (pythonPd : Option Sample)
    (w : World) : Except Unit ProgressTracker × World :=
  match pdSource t pythonPd with
  | none => (.ok t, w)
  | some pd =>
    if pd.progress = 0 then (.ok t, w)
    else if t.lastProgressMessage.isSome ∧ |pd.progress - t.lastProgressPercentage| < 1 then
      (.ok t, w)
    else
      let w1 :=
        match t.lastProgressMessageId with
        | some mid => (opDelete mid w).2
        | none => w
      match opSend true w1 with
      | (some mid, w2) =>
        (.ok { t with lastProgressMessageId := some mid,
                      lastProgressMessage := some pd,
                      lastProgressPercentage := pd.progress }, w2)
      | (none, w2) => (.error (), w2)

/-- `sendProgressUpdate`: the whole body sits in `try { ... } catch` which
logs and returns, so a thrown send leaves the tracker fields untouched. -/
def ProgressTracker.sendProgressUpdate (t : ProgressTracker)
    (pythonPd : Option Sample) (w : World) : ProgressTracker × World :=
  match t.sendAttempt pythonPd w with
  | (.ok t', w') => (t', w')
  | (.error _, w') => (t, w')

/-- `checkAndSendProgressUpdate(force)`: transmit when forced or when 5
seconds have passed since `lastUpdate`, then stamp `lastUpdate`. -/
def ProgressTracker.checkAndSendProgressUpdate (t : ProgressTracker)
    (force : Bool) (now : ℕ) (pythonPd : Option Sample) (w : World) :
    ProgressTracker × World :=
  if force || decide (5000 ≤ now - t.lastUpdate) then
    let r := t.sendProgressUpdate pythonPd w
    ({ r.1 with lastUpdate := now }, r.2)
  else (t, w)

/-- `updateYouTubeProgress(progressData)`. -/
def ProgressTracker.updateYouTubeProgress (t : ProgressTracker) (pd : Sample) :
    ProgressTracker :=
  { t with isYouTube := true, youtubeProgress := pd }

/-- `finish()`: delete the last live message inside its own `try` (errors
ignored), then send the final summary — that send is not guarded, so a
transport error there escapes to the caller.  Registry bookkeeping
(`clearInterval`, `activeDownloads.delete`) has no transport effect. -/
def ProgressTracker.finish (t : ProgressTracker) (w : World) :
    Except Unit (ProgressTracker × World) :=
  let w1 :=
    match t.lastProgressMessageId with
    | some mid => (opDelete mid w).2
    | none => w
  match opSend false w1 with
  | (some _, w2) => .ok (t, w2)
  | (none, _) => .error ()

/-! ## OptimizedProgressTracker (performance manager) -/

/-- Mutable fields of `OptimizedProgressTracker`. -/
structure OptimizedProgressTracker where
  totalItems : ℕ
  completed : ℕ
  failed : ℕ
  startTime : ℕ
  lastUpdate : ℕ
  lastProgressMessageId : Option ℕ
  updateThreshold : ℕ
  progressData : Sample

/-- The constructor's initial state (`updateThreshold = 2000`). -/
def OptimizedProgressTracker.mk0 (totalItems startTime : ℕ) :
    OptimizedProgressTracker :=
  { totalItems, completed := 0, failed := 0, startTime, lastUpdate := 0,
    lastProgressMessageId := none, updateThreshold := 2000,
    progressData := Sample.init }

/-- `start()`: send the initial message and record its key as the live
message.  The send is unguarded; the boolean flags a thrown call. -/
def OptimizedProgressTracker.start (t : OptimizedProgressTracker) (w : World) :
    Bool × OptimizedProgressTracker × World :=
  match opSend true w with
  | (some mid, w') => (false, { t with lastProgressMessageId := some mid }, w')
  | (none, w') => (true, t, w')

/-- `updateProgress(progressData)`: debounce on `updateThreshold`, merge
the sample, best-effort delete of the previous message, unguarded send of
the new one.  The boolean flags a thrown send (which escapes after the
merge and the delete already happened). -/
def OptimizedProgressTracker.updateProgress (t : OptimizedProgressTracker)
    (pd : Sample) (now : ℕ) (w : World) :
    Bool × OptimizedProgressTracker × World :=
  if now - t.lastUpdate < t.updateThreshold then (false, t, w)
  else
    let t1 := { t with progressData := pd, lastUpdate := now }
    let w1 :=
      match t.lastProgressMessageId with
      | some mid => (opDelete mid w).2
      | none => w
    match opSend true w1 with
    | (some mid, w2) => (false, { t1 with lastProgressMessageId := some mid }, w2)
    | (none, w2) => (true, t1, w2)

/-- `finish()`: best-effort delete, then an unguarded summary send. -/
def OptimizedProgressTracker.finish (t : OptimizedProgressTracker) (w : World) :
    Bool × World :=
  let w1 :=
    match t.lastProgressMessageId with
    | some mid => (opDelete mid w).2
    | none => w
  match opSend false w1 with
  | (some _, w2) => (false, w2)
  | (none, w2) => (true, w2)

/-- A sequence of `checkAndSendProgressUpdate` calls on one standard
tracker: each entry carries the force flag, the clock, and the
side-channel sample visible at that moment. -/
def runStd (t : ProgressTracker) (w : World) :
    List (Bool × ℕ × Option Sample) → ProgressTracker × World
  | [] => (t, w)
  | (force, now, pd) :: rest =>
    let r := t.checkAndSendProgressUpdate force now pd w
    runStd r.1 r.2 rest

/-- A sequence of `updateProgress` calls on one optimized tracker. -/
def runOpt (t : OptimizedProgressTracker) (w : World) :
    List (Sample × ℕ) → OptimizedProgressTracker × World
  | [] => (t, w)
  | (pd, now) :: rest =>
    let r := t.updateProgress pd now w
    runOpt r.2.1 r.2.2 rest

/-- Reporter invariant: at most one tracked status message is visible, and
any visible one is the recorded live message. -/
def LiveInv (ref : Option ℕ) (w : World) : Prop :=
  w.live.length ≤ 1 ∧ ∀ id ∈ w.live, ref = some id

/-- The three-update debounce scenario of the spec: updates at `t0`,
`t0 + 500` and `t0 + 2100` (here `t0 = 10000`) against the optimized
tracker with its 2000 ms threshold; returns the transmitted-message count
after each call. -/
def debounceScenario : List ℕ :=
  let w0 := World.init (fun _ => true) (fun _ => true)
  let t0 := OptimizedProgressTracker.mk0 1 10000
  let s : ℚ → Sample := fun k => { Sample.init with progress := k }
  let r1 := t0.updateProgress (s 10) 10000 w0
  let r2 := r1.2.1.updateProgress (s 20) 10500 r1.2.2
  let r3 := r2.2.1.updateProgress (s 30) 12100 r2.2.2
  [r1.2.2.sent.length, r2.2.2.sent.length, r3.2.2.sent.length]

example : debounceScenario = [1, 1, 2] := by decide

/-! ## PerformanceManager.throttleOperation

`throttleOperation` busy-polls `while (activeOperations >= maxConcurrency)
await sleep(10)`, then increments and runs the operation with the decrement
in `finally`.  On the single-threaded event loop no suspension point sits
between the passing check and the increment, so admission is the atomic
step `enter`; the `finally` decrement fires on normal return and on throw
alike, giving the step `leave` with either outcome.  Waiting operations
are `pending`, admitted ones `running`, completed ones `done`. -/

/-- The ceiling set in the `PerformanceManager` constructor. -/
def defaultMaxConcurrency : ℕ := 10

inductive OpStatus where
  | pending
  | running
  | done
deriving DecidableEq, Repr

/-- The shared throttle state: the `activeOperations` counter plus the
status of each operation handed to `throttleOperation`. -/
structure ThrottleState where
  active : ℕ
  ops : List OpStatus
deriving DecidableEq, Repr

/-- All operations waiting, counter zero. -/
def ThrottleState.init (n : ℕ) : ThrottleState :=
  { active := 0, ops := List.replicate n .pending }

/-- Interleaved event-loop steps of `throttleOperation`. -/
inductive ThrottleStep (maxC : ℕ) : ThrottleState → ThrottleState → Prop
  | enter (s : ThrottleState) (i : ℕ) :
      s.ops.get? i = some .pending →
      s.active < maxC →
      ThrottleStep maxC s { active := s.active + 1, ops := s.ops.set i .running }
  | leave (s : ThrottleState) (i : ℕ) (threw : Bool) :
      s.ops.get? i = some .running →
      ThrottleStep maxC s { active := s.active - 1, ops := s.ops.set i .done }

/-- States reachable by some interleaving of `n` throttled operations. -/
inductive ThrottleReach (maxC n : ℕ) : ThrottleState → Prop
  | init : ThrottleReach maxC n (ThrottleState.init n)
  | step {s s'} : ThrottleReach maxC n s → ThrottleStep maxC s s' →
      ThrottleReach maxC n s'

/-! ## parseEpisodeSelection (anime handler) -/

/-- An episode entry as returned by the scraper (`availableEpisodes`
elements; only `.number` is read here). -/
structure Episode where
  number : ℕ
deriving DecidableEq, Repr

/-- Result object of `parseEpisodeSelection`. -/
structure SelectionResult where
  valid : Bool
  isRange : Bool
  episodes : List ℕ
  error : Option Str
deriving DecidableEq, Repr

/-- JS `''.trim()` on our character lists. -/
def trimL (l : Str) : Str :=
  (l.dropWhile isWsC).reverse.dropWhile isWsC |>.reverse

/-- `Number.parseInt` on the strings reaching it here (no sign, no leading
whitespace beyond what `trim` removed): the leading digit run, `NaN`
(`none`) when there is none. -/
def parseIntJS (l : Str) : Option ℕ :=
  let (d, _) := takeDigits l
  if d = [] then none else some (digitsVal d)

/-- JS `selection.split("-")`: split at every dash. -/
def splitDash (l : Str) : List Str :=
  match l with
  | [] => [[]]
  | '-' :: t => [] :: splitDash t
  | c :: t =>
    match splitDash t with
    | [] => [[c]]
    | p :: ps => (c :: p) :: ps

/-- `[start, end]` destructuring of the split followed by
`parseInt(num.trim())` on each. -/
def rangeEnds (sel : Str) : Option ℕ × Option ℕ :=
  match splitDash sel with
  | [] => (none, none)
  | [a] => (parseIntJS (trimL a), none)
  | a :: b :: _ => (parseIntJS (trimL a), parseIntJS (trimL b))

/-- `for (let i = start; i <= end; i++) if (episodeNumbers.includes(i)) push(i)`. -/
def collectRange (episodeNumbers : List ℕ) (start endE : ℕ) : List ℕ :=
  ((List.range (endE + 1 - start)).map (· + start)).filter
    (fun i => episodeNumbers.contains i)

/-- `parseEpisodeSelection(selection, availableEpisodes)` from the anime
feature module. -/
def parseEpisodeSelection (selection : Str) (availableEpisodes : List Episode) :
    SelectionResult :=
  let episodeNumbers := availableEpisodes.map (·.number)
  if containsL selection (str "-") then
    match rangeEnds selection with
    | (some start, some endE) =>
      if start > endE then
        { valid := false, isRange := false, episodes := [],
          error := some (str "Invalid range format") }
      else
        let requested := collectRange episodeNumbers start endE
        if requested = [] then
          { valid := false, isRange := false, episodes := [],
            error := some (str "No episodes found in range") }
        else
          { valid := true, isRange := true, episodes := requested, error := none }
    | _ =>
      { valid := false, isRange := false, episodes := [],
        error := some (str "Invalid range format") }
  else
    match parseIntJS (trimL selection) with
    | some n =>
      if episodeNumbers.contains n then
        { valid := true, isRange := false, episodes := [n], error := none }
      else
        { valid := false, isRange := false, episodes := [],
          error := some (str "Episode not available") }
    | none =>
      { valid := false, isRange := false, episodes := [],
        error := some (str "Episode not available") }

example :
    (parseEpisodeSelection (str "2-6")
      [⟨1⟩, ⟨2⟩, ⟨3⟩, ⟨5⟩, ⟨8⟩]).episodes = [2, 3, 5] := by decide

/-! ## Batch dispatcher (sendVideoSearchResults / sendChannelLatestVideos)

Both functions map every result to a render job
(`videos.map(async (video, i) => ...)`) that builds the caption and
fetches the thumbnail, await all of them, sort the prepared records by
their original index, then send sequentially: an image-with-caption when
the thumbnail arrived, a text-only message when its fetch threw. -/

/-- A search-result item: the fields the caption is rendered from.  The
rendered caption is abstracted into `caption`; `thumbnail` keys the
auxiliary fetch. -/
structure VideoItem where
  caption : Str
  thumbnail : ℕ
deriving DecidableEq, Repr

/-- One element of `videoData`: the record a render job resolves to. -/
structure PreparedItem where
  index : ℕ
  videoText : Str
  thumbnailBuffer : Option ℕ
deriving DecidableEq, Repr

/-- An outbound message of the send loop. -/
inductive OutMsg where
  | image (caption : Str) (buf : ℕ)
  | text (t : Str)
deriving DecidableEq, Repr

/-- The render jobs, in input order: `fetch` is the thumbnail downloader
(`none` models a thrown `downloadImage`, caught into a text-only fall
back). -/
def prepareFrom (fetch : ℕ → Option ℕ) (i : ℕ) : List VideoItem → List PreparedItem
  | [] => []
  | v :: vs =>
    { index := i, videoText := v.caption, thumbnailBuffer := fetch v.thumbnail } ::
      prepareFrom fetch (i + 1) vs

/-- `videoData.sort((a, b) => a.index - b.index)`: with pairwise-distinct
indices every comparator-correct sort yields the unique order sorted by
index; insertion sort realises it. -/
def sortByIndex (l : List PreparedItem) : List PreparedItem :=
  l.insertionSort (fun a b => a.index ≤ b.index)

/-- The sequential send loop over the sorted records. -/
def sendLoop (l : List PreparedItem) : List OutMsg :=
  l.map fun d =>
    match d.thumbnailBuffer with
    | some b => .image d.videoText b
    | none => .text d.videoText

/-- `sendVideoSearchResults` transmission, given the prepared records in
whatever order their awaits delivered them. -/
def transmitResults (data : List PreparedItem) : List OutMsg :=
  sendLoop (sortByIndex data)

/-! ## Conversation state machine (src/bot.js + youtube handlers)

`userStates` is a `Map` from conversation jid to the current state object;
the message handler routes a non-command text through the `switch` on
`userState.state`.  Modelled below are the YouTube branches the claims
concern (`video_search_results`, `channel_search_results`,
`channel_videos_results`); the remaining branches dispatch to unrelated
feature handlers and are kept abstract as `.otherState`. -/

/-- The state objects the YouTube flows store (`searchResults` holds video
or channel items depending on the state tag; absent fields are `none`). -/
structure UserState where
  state : Str
  searchResults : Option (List VideoItem)
  channelVideos : Option (List VideoItem)
deriving DecidableEq, Repr

/-- The `userStates` map. -/
def StatesMap := List (Str × UserState)

/-- `userStates.get(jid)`. -/
def getState (m : StatesMap) (jid : Str) : Option UserState :=
  match m with
  | [] => none
  | (k, v) :: t => if k = jid then some v else getState t jid

/-- What a dispatched message makes the system do next. -/
inductive Action where
  | autoReply
  | errNoResults
  | errFormat
  | errNumber (limit : ℕ)
  | errQuality
  | errNoChannelResults
  | videoDownload (index : ℕ) (item : VideoItem) (quality : Str)
  | channelFetch (index : ℕ) (videoCount : ℕ)
  | otherState (tag : Str)
deriving DecidableEq, Repr

/-- Word accumulator for `splitWs`. -/
def splitWsGo : Str → Str → List Str
  | acc, [] => if acc = [] then [] else [acc.reverse]
  | acc, c :: t =>
    if isWsC c then
      if acc = [] then splitWsGo [] t else acc.reverse :: splitWsGo [] t
    else splitWsGo (c :: acc) t

/-- JS `text.split(/\s+/)` on an already trimmed string (the handlers
always trim first, so no leading empty field arises). -/
def splitWs (l : Str) : List Str := splitWsGo [] l

/-- `/^\d+\s+(480|720|1080)$/.test(text)`. -/
def matchesVideoSelection (l : Str) : Bool :=
  let (d, r1) := takeDigits l
  if d = [] then false
  else
    let (w, r2) := takeWs r1
    if w = [] then false
    else r2 = str "480" || r2 = str "720" || r2 = str "1080"

/-- `/^\d+(\s+\d+)?$/.test(text)`. -/
def matchesChannelSelection (l : Str) : Bool :=
  let (d, r1) := takeDigits l
  if d = [] then false
  else if r1 = [] then true
  else
    let (w, r2) := takeWs r1
    if w = [] then false
    else
      let (d2, r3) := takeDigits r2
      d2 ≠ [] && r3 = []

/-- `handleVideoSelection(sock, messageInfo, selection, userStates)` from
src/features/youtube.js: validates `<number> <quality>` against the cached
results and starts `downloadAndSendVideo`; it never writes `userStates`. -/
def handleVideoSelection (m : StatesMap) (jid : Str) (selection : Str) :
    Action × StatesMap :=
  match getState m jid with
  | none => (.errNoResults, m)
  | some us =>
    if us.searchResults = none ∧ us.channelVideos = none then (.errNoResults, m)
    else
      match splitWs (trimL selection) with
      | [p0, p1] =>
        let videos := us.searchResults.getD (us.channelVideos.getD [])
        match parseIntJS p0 with
        | none => (.errNumber videos.length, m)
        | some k0 =>
          if (k0 : ℤ) - 1 < 0 ∨ (videos.length : ℤ) ≤ (k0 : ℤ) - 1 then
            (.errNumber videos.length, m)
          else if ¬(p1 = str "480" ∨ p1 = str "720" ∨ p1 = str "1080") then
            (.errQuality, m)
          else
            match videos.get? ((k0 : ℤ) - 1).toNat with
            | some v => (.videoDownload ((k0 : ℤ) - 1).toNat v p1, m)
            | none => (.errNumber videos.length, m)
      | _ => (.errFormat, m)

/-- `handleChannelSelection(sock, remoteJid, selection, userStates)`:
resolves the channel index and the requested latest-video count
(`parts.length > 1 ? Math.min(parseInt(parts[1]), 20) : 10`) and calls
`getChannelLatestVideos(channel.id, videoCount)`.  The transition made
after that fetch resolves depends on the collaborator's answer and is
outside the modelled prefix. -/
def handleChannelSelection (m : StatesMap) (jid : Str) (selection : Str) :
    Action × StatesMap :=
  match getState m jid with
  | none => (.errNoChannelResults, m)
  | some us =>
    if us.state ≠ str "channel_search_results" then (.errNoChannelResults, m)
    else
      let channels := us.searchResults.getD []
      let step : Str → Option ℕ → Action × StatesMap := fun p0 videoCount =>
        match parseIntJS p0, videoCount with
        | some k0, some cnt =>
          if (k0 : ℤ) - 1 < 0 ∨ (channels.length : ℤ) ≤ (k0 : ℤ) - 1 then
            (.errNumber channels.length, m)
          else (.channelFetch ((k0 : ℤ) - 1).toNat cnt, m)
        | _, _ => (.errNumber channels.length, m)
      match splitWs (trimL selection) with
      | [] => (.errNumber channels.length, m)
      | [p0] => step p0 (some 10)
      | p0 :: p1 :: _ => step p0 ((parseIntJS p1).map (min · 20))

/-- The state-reply portion of `messagesUpsertHandler` in src/bot.js for a
trimmed, non-empty, non-command inbound text: look up the conversation
state, test the per-state acceptance pattern, and either dispatch to the
matching handler or fall through to the default auto-reply. -/
def dispatchStateReply (m : StatesMap) (jid : Str) (text : Str) :
    Action × StatesMap :=
  match getState m jid with
  | none => (.autoReply, m)
  | some us =>
    if us.state = str "video_search_results" then
      if matchesVideoSelection text then handleVideoSelection m jid text
      else (.autoReply, m)
    else if us.state = str "channel_search_results" then
      if matchesChannelSelection text then handleChannelSelection m jid text
      else (.autoReply, m)
    else if us.state = str "channel_videos_results" then
      if matchesVideoSelection text then handleVideoSelection m jid text
      else (.autoReply, m)
    else (.otherState us.state, m)

/-! ## Theorems -/

/-- The available-episode set of the range-resolution test. -/
def sampleEpisodes : List Episode := [⟨1⟩, ⟨2⟩, ⟨3⟩, ⟨5⟩, ⟨8⟩]

/-- C5: with episodes 1,2,3,5,8 the range "2-6" resolves to exactly
2,3,5 and is valid; "10-20" yields a validation error; and a valid
result of `parseEpisodeSelection` is never empty. -/
theorem parseEpisodeSelection_range_correct :
    parseEpisodeSelection (str "2-6") sampleEpisodes =
      { valid := true, isRange := true, episodes := [2, 3, 5], error := none } ∧
    ((parseEpisodeSelection (str "10-20") sampleEpisodes).valid = false ∧
      (parseEpisodeSelection (str "10-20") sampleEpisodes).error.isSome = true) ∧
    (∀ sel avail, (parseEpisodeSelection sel avail).valid = true →
      (parseEpisodeSelection sel avail).episodes ≠ []) := by
  refine ⟨by decide, ⟨by decide, by decide⟩, ?_⟩
  intro sel avail
  unfold parseEpisodeSelection
  rcases hr : rangeEnds sel with ⟨a, b⟩
  rcases hp : parseIntJS (trimL sel) with _ | n <;>
    simp only [hr, hp] <;>
    cases a <;> cases b <;>
    split_ifs <;> simp_all <;> split_ifs <;> simp_all

/-- C5 witness: the general nonemptiness conjunct applied at the concrete
range request. -/
theorem parseEpisodeSelection_range_correct_witness :
    (parseEpisodeSelection (str "2-6") sampleEpisodes).episodes ≠ [] :=
  parseEpisodeSelection_range_correct.2.2 (str "2-6") sampleEpisodes (by decide)

/-- Three cached search results for the video-selection scenario. -/
def sampleVideos : List VideoItem :=
  [⟨str "v1", 1⟩, ⟨str "v2", 2⟩, ⟨str "v3", 3⟩]

/-- A conversation sitting in the video-selection state with those three
cached results. -/
def sampleVideoStates : StatesMap :=
  [(str "chat1",
    { state := str "video_search_results", searchResults := some sampleVideos,
      channelVideos := none })]

/-- C1 counterexample: the reply "2 720" does start the download of the
second result at quality 720, but the conversation's state entry is not
cleared — `handleVideoSelection` never touches `userStates`, so after
dispatch the entry is still present (the claim asserts it is cleared). -/
theorem videoSelection_state_not_cleared :
    (dispatchStateReply sampleVideoStates (str "chat1") (str "2 720")).1 =
      Action.videoDownload 1 ⟨str "v2", 2⟩ (str "720") ∧
    getState (dispatchStateReply sampleVideoStates (str "chat1") (str "2 720")).2
      (str "chat1") ≠ none := by
  constructor
  · decide
  · decide

/-- C1 amended: an accepted reply in the video-selection state dispatches
the download of the (1-based input, 0-based internal) selected item at the
requested quality, and leaves the `userStates` map — in particular the
conversation's entry — unchanged rather than clearing it. -/
theorem videoSelection_dispatch_and_state_kept
    (m : StatesMap) (jid text ds q : Str) (us : UserState)
    (vids : List VideoItem) (k : ℕ) (v : VideoItem)
    (hget : getState m jid = some us)
    (hstate : us.state = str "video_search_results")
    (hres : us.searchResults = some vids)
    (hmatch : matchesVideoSelection text = true)
    (hsplit : splitWs (trimL text) = [ds, q])
    (hk : parseIntJS ds = some k)
    (hk1 : 1 ≤ k) (hkn : k ≤ vids.length)
    (hv : vids.get? (k - 1) = some v)
    (hq : q = str "480" ∨ q = str "720" ∨ q = str "1080") :
    dispatchStateReply m jid text =
      (Action.videoDownload (k - 1) v q, m) := by
  have hidx : ((k : ℤ) - 1).toNat = k - 1 := by omega
  have hnotneg : ¬((k : ℤ) - 1 < 0 ∨ (vids.length : ℤ) ≤ (k : ℤ) - 1) := by
    push_neg
    constructor <;> omega
  have hh : handleVideoSelection m jid text =
      (Action.videoDownload (k - 1) v q, m) := by
    unfold handleVideoSelection
    rw [hget]
    dsimp only
    rw [if_neg (by simp [hres] : ¬(us.searchResults = none ∧ us.channelVideos = none))]
    simp only [hsplit, hres, hk, Option.getD_some]
    rw [if_neg hnotneg]
    rw [if_neg (not_not_intro hq), hidx, hv]
  unfold dispatchStateReply
  rw [hget]
  dsimp only
  simp only [hstate, hmatch, eq_self_iff_true, if_true, hh]

/-- C1 amended witness: the concrete "2 720" scenario through the general
theorem. -/
theorem videoSelection_dispatch_and_state_kept_witness :
    dispatchStateReply sampleVideoStates (str "chat1") (str "2 720") =
      (Action.videoDownload 1 ⟨str "v2", 2⟩ (str "720"), sampleVideoStates) :=
  videoSelection_dispatch_and_state_kept sampleVideoStates (str "chat1")
    (str "2 720") (str "2") (str "720")
    { state := str "video_search_results", searchResults := some sampleVideos,
      channelVideos := none }
    sampleVideos 2 ⟨str "v2", 2⟩
    (by decide) (by decide) (by decide) (by decide) (by decide) (by decide)
    (by decide) (by decide) (by decide) (by decide)

/-- C10: an accepted channel-selection reply requests `min(second, 20)`
latest videos when a second integer is present, and 10 when it is not. -/
theorem channelSelection_requested_count :
    (∀ (m : StatesMap) (jid text d1 : Str) (us : UserState)
      (channels : List VideoItem) (k : ℕ),
      getState m jid = some us →
      us.state = str "channel_search_results" →
      us.searchResults = some channels →
      matchesChannelSelection text = true →
      splitWs (trimL text) = [d1] →
      parseIntJS d1 = some k → 1 ≤ k → k ≤ channels.length →
      dispatchStateReply m jid text = (Action.channelFetch (k - 1) 10, m)) ∧
    (∀ (m : StatesMap) (jid text d1 d2 : Str) (us : UserState)
      (channels : List VideoItem) (k c : ℕ),
      getState m jid = some us →
      us.state = str "channel_search_results" →
      us.searchResults = some channels →
      matchesChannelSelection text = true →
      splitWs (trimL text) = [d1, d2] →
      parseIntJS d1 = some k → parseIntJS d2 = some c →
      1 ≤ k → k ≤ channels.length →
      dispatchStateReply m jid text =
        (Action.channelFetch (k - 1) (min c 20), m)) := by
  have main : ∀ (m : StatesMap) (jid text : Str) (us : UserState)
      (channels : List VideoItem) (k : ℕ) (act : Action),
      getState m jid = some us →
      us.state = str "channel_search_results" →
      matchesChannelSelection text = true →
      handleChannelSelection m jid text = (act, m) →
      dispatchStateReply m jid text = (act, m) := by
    intro m jid text us channels k act hget hstate hmatch hh
    unfold dispatchStateReply
    rw [hget]
    dsimp only
    rw [hstate]
    rw [if_neg (by decide : ¬(str "channel_search_results" = str "video_search_results"))]
    rw [if_pos rfl, hmatch, if_pos rfl, hh]
  constructor
  · intro m jid text d1 us channels k hget hstate hres hmatch hsplit hk hk1 hkn
    have hidx : ((k : ℤ) - 1).toNat = k - 1 := by omega
    have hnotneg : ¬((k : ℤ) - 1 < 0 ∨ (channels.length : ℤ) ≤ (k : ℤ) - 1) := by
      push_neg
      constructor <;> omega
    refine main m jid text us channels k _ hget hstate hmatch ?_
    unfold handleChannelSelection
    rw [hget]
    dsimp only
    rw [if_neg (not_not_intro hstate)]
    simp only [hsplit, hres, hk, Option.getD_some]
    rw [if_neg hnotneg, hidx]
  · intro m jid text d1 d2 us channels k c hget hstate hres hmatch hsplit hk hc hk1 hkn
    have hidx : ((k : ℤ) - 1).toNat = k - 1 := by omega
    have hnotneg : ¬((k : ℤ) - 1 < 0 ∨ (channels.length : ℤ) ≤ (k : ℤ) - 1) := by
      push_neg
      constructor <;> omega
    refine main m jid text us channels k _ hget hstate hmatch ?_
    unfold handleChannelSelection
    rw [hget]
    dsimp only
    rw [if_neg (not_not_intro hstate)]
    simp only [hsplit, hres, hk, hc, Option.map_some', Option.getD_some]
    rw [if_neg hnotneg, hidx]

/-- Two cached channel results for the channel-selection scenario. -/
def sampleChannelStates : StatesMap :=
  [(str "chat1",
    { state := str "channel_search_results",
      searchResults := some [⟨str "c1", 1⟩, ⟨str "c2", 2⟩],
      channelVideos := none })]

/-- C10 witness: "2 25" fetches channel index 1 with the count capped at
20, via the general theorem. -/
theorem channelSelection_requested_count_witness :
    dispatchStateReply sampleChannelStates (str "chat1") (str "2 25") =
      (Action.channelFetch 1 20, sampleChannelStates) :=
  channelSelection_requested_count.2 sampleChannelStates (str "chat1")
    (str "2 25") (str "2") (str "25")
    { state := str "channel_search_results",
      searchResults := some [⟨str "c1", 1⟩, ⟨str "c2", 2⟩],
      channelVideos := none }
    [⟨str "c1", 1⟩, ⟨str "c2", 2⟩] 2 25
    (by decide) (by decide) (by decide) (by decide) (by decide) (by decide)
    (by decide) (by decide) (by decide)

/-- The synthetic post-processing sample of the music parser. -/
def convertingSample : Sample :=
  { progress := 95, total_size := str "Converting...", downloaded_size := [],
    speed := [], eta := str "Almost done", time_elapsed := [] }

/-- C3 counterexample: the YouTube progress parsers emit nothing — not a
95% "converting" sample — on post-processing marker lines (an ffmpeg
remux line and an ffmpeg destination line, at mid-download recorded
progress 50). -/
theorem youtubeParser_no_converting_sample :
    parseYouTubeProgress 5000 0 50
      (str "[ffmpeg] Merging formats into video.mp4") = none ∧
    parseYouTubeProgress 5000 0 50
      (str "[ffmpeg] Destination: song.mp3") = none := by
  constructor
  · decide
  · decide

/-- C3 amended: the synthetic 95% `Converting...` sample is emitted by the
music-download parser, whose post-processing marker is a line containing
`[ffmpeg]` and `Destination:` — there it is the last update call made for
the line; the YouTube parsers emit no sample at all for any line lacking a
`[download]` tag. -/
theorem converting_sample_music_parser_only :
    (∀ (now startTime : ℕ) (last : ℚ) (line : Str),
      containsL line (str "[ffmpeg]") = true →
      containsL line (str "Destination:") = true →
      (parseMusicProgress now startTime last line).getLast? =
        some convertingSample) ∧
    (∀ (now startTime : ℕ) (last : ℚ) (line : Str),
      containsL line (str "[download]") = false →
      parseYouTubeProgress now startTime last line = none) := by
  constructor
  · intro now startTime last line h1 h2
    unfold parseMusicProgress
    dsimp only
    simp only [h1, h2, Bool.and_self, eq_self_iff_true, if_true]
    exact List.getLast?_concat _
  · intro now startTime last line h
    unfold parseYouTubeProgress
    simp [h]

/-- C3 amended witness: the concrete ffmpeg destination line through the
general theorem. -/
theorem converting_sample_music_parser_only_witness :
    (parseMusicProgress 5000 0 50 (str "[ffmpeg] Destination: song.mp3")).getLast? =
      some convertingSample :=
  converting_sample_music_parser_only.1 5000 0 50
    (str "[ffmpeg] Destination: song.mp3") (by decide) (by decide)

/-- Facts forced by an accepted line: a percentage token, a total-size
token, and a strict increase over the recorded percentage. -/
lemma parse_accept_facts (now startTime : ℕ) (last : ℚ) (line : Str)
    (s : Sample) (h : parseYouTubeProgress now startTime last line = some s) :
    (findPercent line).isSome = true ∧ (findSize line).isSome = true ∧
    s.total_size ≠ [] ∧ last < s.progress := by
  unfold parseYouTubeProgress at h
  by_cases hdl : (containsL line (str "[download]") && containsL line (str "%")) = true
  · rw [if_pos hdl] at h
    by_cases hfr :
        (containsL line (str "fragment") || containsL line (str "audio only")) = true
    · rw [if_pos hfr] at h
      exact absurd h (by simp)
    · rw [if_neg hfr] at h
      cases hp : findPercent line with
      | none =>
        rw [hp] at h
        exact absurd h (by simp)
      | some cap =>
        rw [hp] at h
        dsimp only at h
        by_cases h100 : (100 ≤ capToRat cap ∧ 100 ≤ last)
        · rw [if_pos h100] at h
          exact absurd h (by simp)
        · rw [if_neg h100] at h
          by_cases hacc : ((findSize line).getD [] ≠ [] ∧ last < capToRat cap)
          · rw [if_pos hacc] at h
            obtain ⟨hts, hlt⟩ := hacc
            injection h with h'
            subst h'
            refine ⟨by simp [hp], ?_, hts, hlt⟩
            cases hs : findSize line with
            | none =>
              rw [hs] at hts
              simp at hts
            | some u => simp
          · rw [if_neg hacc] at h
            exact absurd h (by simp)
  · rw [if_neg hdl] at h
    exact absurd h (by simp)

/-- One parsed line never lowers the recorded percentage. -/
lemma stepProgress_le (startTime : ℕ) (p : ℚ) (tl : ℕ × Str) :
    p ≤ stepProgress startTime p tl := by
  unfold stepProgress
  cases hp : parseYouTubeProgress tl.1 startTime p tl.2 with
  | none => exact le_refl p
  | some s => exact le_of_lt (parse_accept_facts tl.1 startTime p tl.2 s hp).2.2.2

/-- The trace always starts with its seed. -/
lemma progressTrace_head (startTime : ℕ) (p : ℚ) (l : List (ℕ × Str)) :
    (progressTrace startTime p l).head? = some p := by
  cases l <;> rfl

/-- The recorded-percentage trace is non-decreasing. -/
lemma progressTrace_chain (startTime : ℕ) (p : ℚ) (l : List (ℕ × Str)) :
    List.Chain' (· ≤ ·) (progressTrace startTime p l) := by
  induction l generalizing p with
  | nil => simp [progressTrace]
  | cons tl rest ih =>
    rw [progressTrace]
    refine List.chain'_cons'.2 ⟨?_, ih _⟩
    intro y hy
    rw [progressTrace_head] at hy
    simp only [Option.mem_def, Option.some_inj] at hy
    subst hy
    exact stepProgress_le startTime p tl

/-- C4: over any raw line sequence the recorded percentage is
non-decreasing; an update happens only when the line carries a percentage
token and a total-size token and strictly exceeds the recorded
percentage; and fragment / audio-only lines never change the progress
state. -/
theorem parseYouTubeProgress_monotonic_guarded :
    (∀ (now startTime : ℕ) (last : ℚ) (line : Str) (s : Sample),
      parseYouTubeProgress now startTime last line = some s →
      (findPercent line).isSome = true ∧ (findSize line).isSome = true ∧
      s.total_size ≠ [] ∧ last < s.progress) ∧
    (∀ (startTime : ℕ) (p : ℚ) (lines : List (ℕ × Str)),
      List.Chain' (· ≤ ·) (progressTrace startTime p lines)) ∧
    (∀ (now startTime : ℕ) (last : ℚ) (line : Str),
      (containsL line (str "fragment") || containsL line (str "audio only")) = true →
      parseYouTubeProgress now startTime last line = none) := by
  refine ⟨parse_accept_facts, progressTrace_chain, ?_⟩
  intro now startTime last line h
  unfold parseYouTubeProgress
  by_cases hdl : (containsL line (str "[download]") && containsL line (str "%")) = true
  · rw [if_pos hdl, if_pos h]
  · rw [if_neg hdl]

/-- C4 witness: a fragment line is dropped, and a plain download line at
45% over 10MiB is accepted with a strict increase over 0, both through
the general theorem. -/
theorem parseYouTubeProgress_monotonic_guarded_witness :
    parseYouTubeProgress 5000 0 50
      (str "[download]  60% of 10MiB (frag 3/10) fragment") = none ∧
    ((0 : ℚ) < 45 ∧ (str "10MiB") ≠ []) := by
  constructor
  · exact parseYouTubeProgress_monotonic_guarded.2.2 5000 0 50
      (str "[download]  60% of 10MiB (frag 3/10) fragment") (by decide)
  · have h := parseYouTubeProgress_monotonic_guarded.1 5000 0 0
      (str "[download]  45% of 10MiB at 2MiB/s ETA 00:30")
      { progress := 45, total_size := str "10MiB", downloaded_size := [],
        speed := str "2MiB/s", eta := str "00:30",
        time_elapsed := str "00:05" } (by decide)
    exact ⟨h.2.2.2, h.2.2.1⟩

/-- Deleting a message touches neither the send counter nor the send
behaviour. -/
lemma opDelete_preserves (id : ℕ) (w : World) :
    (opDelete id w).2.sends = w.sends ∧ (opDelete id w).2.sendB = w.sendB := by
  unfold opDelete
  dsimp only
  split <;> exact ⟨rfl, rfl⟩

/-- A tracker mid-job with one recorded live message. -/
def c2Tracker : ProgressTracker :=
  { ProgressTracker.mk0 3 0 with lastProgressMessageId := some 0 }

/-- A transport whose sends all throw (deletes succeed). -/
def c2World : World := World.init (fun _ => false) (fun _ => true)

/-- A transport whose deletes all throw (sends succeed). -/
def c2WorldDel : World := World.init (fun _ => true) (fun _ => false)

/-- C2 counterexample: with a transport whose send throws, `finish`
propagates the exception to its caller (the final summary send sits
outside every `try`), contradicting the claim that neither `update` nor
`finish` ever propagates a transport error. -/
theorem finish_propagates_send_error :
    ProgressTracker.finish c2Tracker c2World = Except.error () := rfl

/-- C2 amended: `sendProgressUpdate` swallows every transport error (a
thrown send leaves the tracker unchanged and nothing escapes), and
`finish` swallows a delete failure, but a failure of the final summary
send makes `finish` itself throw. -/
theorem progress_transport_error_handling :
    (∀ (t : ProgressTracker) (pd : Option Sample) (w w' : World),
      t.sendAttempt pd w = (Except.error (), w') →
      t.sendProgressUpdate pd w = (t, w')) ∧
    (∀ (t : ProgressTracker) (w : World) (mid : ℕ),
      t.lastProgressMessageId = some mid →
      w.sendB w.sends = true →
      ∃ w2, t.finish w = Except.ok (t, w2)) ∧
    (∀ (t : ProgressTracker) (w : World),
      w.sendB w.sends = false →
      t.finish w = Except.error ()) := by
  refine ⟨?_, ?_, ?_⟩
  · intro t pd w w' h
    unfold ProgressTracker.sendProgressUpdate
    rw [h]
  · intro t w mid hmid hsend
    unfold ProgressTracker.finish
    rw [hmid]
    dsimp only
    have hps := opDelete_preserves mid w
    unfold opSend
    dsimp only
    rw [hps.1, hps.2, if_pos hsend]
    exact ⟨_, rfl⟩
  · intro t w hsend
    unfold ProgressTracker.finish
    cases hmid : t.lastProgressMessageId with
    | none =>
      dsimp only
      unfold opSend
      dsimp only
      rw [if_neg (by simp [hsend])]
    | some mid =>
      dsimp only
      have hps := opDelete_preserves mid w
      unfold opSend
      dsimp only
      rw [hps.1, hps.2, if_neg (by simp [hsend])]

/-- C2 amended witness: a failing delete is swallowed by `finish` when the
final send succeeds, at the concrete tracker and delete-throwing world. -/
theorem progress_transport_error_handling_witness :
    ∃ w2, ProgressTracker.finish c2Tracker c2WorldDel =
      Except.ok (c2Tracker, w2) :=
  progress_transport_error_handling.2.1 c2Tracker c2WorldDel 0 rfl rfl

/-- A transport where every send and delete succeeds. -/
def okWorld : World := World.init (fun _ => true) (fun _ => true)

/-- A tracker that already transmitted a 50% update (YouTube path). -/
def c7Tracker : ProgressTracker :=
  { ProgressTracker.mk0 1 0 with
    isYouTube := true,
    youtubeProgress := { Sample.init with progress := 50 },
    lastProgressMessage := some { Sample.init with progress := 50 },
    lastProgressPercentage := 50 }

/-- C7: the optimized tracker debounces at its constructor threshold of
2000 ms and the standard tracker at 5000 ms (a non-forced update inside
the window changes nothing); the spec's three-update scenario transmits
exactly at the first and third calls; a forced update bypasses the timer
entirely; and an update whose percentage moved less than one point since
the last transmitted one is suppressed. -/
theorem progress_debounce_correct :
    (∀ n s, (OptimizedProgressTracker.mk0 n s).updateThreshold = 2000) ∧
    (∀ (t : OptimizedProgressTracker) (pd : Sample) (now : ℕ) (w : World),
      now - t.lastUpdate < t.updateThreshold →
      t.updateProgress pd now w = (false, t, w)) ∧
    (∀ (t : ProgressTracker) (now : ℕ) (pd : Option Sample) (w : World),
      ¬(5000 ≤ now - t.lastUpdate) →
      t.checkAndSendProgressUpdate false now pd w = (t, w)) ∧
    debounceScenario = [1, 1, 2] ∧
    (∀ (t : ProgressTracker) (now : ℕ) (pd : Option Sample) (w : World),
      t.checkAndSendProgressUpdate true now pd w =
        ({ (t.sendProgressUpdate pd w).1 with lastUpdate := now },
          (t.sendProgressUpdate pd w).2)) ∧
    (∀ (t : ProgressTracker) (pythonPd : Option Sample) (pd : Sample) (w : World),
      pdSource t pythonPd = some pd →
      ¬(pd.progress = 0) →
      t.lastProgressMessage.isSome = true →
      |pd.progress - t.lastProgressPercentage| < 1 →
      t.sendProgressUpdate pythonPd w = (t, w)) := by
  refine ⟨fun n s => rfl, ?_, ?_, by decide, ?_, ?_⟩
  · intro t pd now w h
    unfold OptimizedProgressTracker.updateProgress
    rw [if_pos h]
  · intro t now pd w h
    unfold ProgressTracker.checkAndSendProgressUpdate
    rw [if_neg (by simp [h])]
  · intro t now pd w
    unfold ProgressTracker.checkAndSendProgressUpdate
    rw [if_pos (by simp)]
  · intro t pythonPd pd w hsrc h0 hsome hlt
    have hA : t.sendAttempt pythonPd w = (Except.ok t, w) := by
      unfold ProgressTracker.sendAttempt
      rw [hsrc]
      dsimp only
      rw [if_neg h0, if_pos ⟨hsome, hlt⟩]
    unfold ProgressTracker.sendProgressUpdate
    rw [hA]

/-- C7 witness: a forced update moving from 50% to 50% is suppressed, at
the concrete tracker and all-succeeding world, through the general
theorem's significance-guard conjunct. -/
theorem progress_debounce_correct_witness :
    ProgressTracker.sendProgressUpdate c7Tracker none okWorld =
      (c7Tracker, okWorld) :=
  progress_debounce_correct.2.2.2.2.2 c7Tracker none
    { Sample.init with progress := 50 } okWorld rfl (by decide) rfl
    (by norm_num [c7Tracker, ProgressTracker.mk0])

/-- Sending never changes the delete behaviour, the delete counter, or —
on failure — the live set. -/
lemma opSend_preserves (tracked : Bool) (w : World) :
    (opSend tracked w).2.delB = w.delB ∧ (opSend tracked w).2.dels = w.dels := by
  unfold opSend
  dsimp only
  split <;> exact ⟨rfl, rfl⟩

/-- Deleting never changes the delete behaviour and always consumes one
delete slot. -/
lemma opDelete_preserves_delB (id : ℕ) (w : World) :
    (opDelete id w).2.delB = w.delB ∧ (opDelete id w).2.dels = w.dels + 1 := by
  unfold opDelete
  dsimp only
  split <;> exact ⟨rfl, rfl⟩

/-- An empty live set satisfies the reporter invariant for any recorded
reference. -/
lemma liveInv_of_nil (ref : Option ℕ) (w : World) (h : w.live = []) :
    LiveInv ref w := by
  constructor
  · simp [h]
  · simp [h]

/-- The best-effort delete of the recorded message empties the live set,
provided the delete call goes through. -/
lemma live_after_delete (ref : Option ℕ) (w : World)
    (hdel : ∀ n, w.delB n = true) (hinv : LiveInv ref w) :
    (match ref with
      | some mid => (opDelete mid w).2
      | none => w).live = [] := by
  cases ref with
  | none =>
    dsimp only
    refine List.eq_nil_iff_forall_not_mem.2 fun id hid => ?_
    exact Option.noConfusion (hinv.2 id hid)
  | some mid =>
    dsimp only
    unfold opDelete
    dsimp only
    rw [if_pos (hdel w.dels)]
    dsimp only
    cases hl : w.live with
    | nil => rfl
    | cons a tl =>
      cases tl with
      | nil =>
        have ha : a = mid := by
          have := hinv.2 a (by rw [hl]; exact List.mem_cons_self a [])
          injection this with h'
          exact h'.symm
        subst ha
        simp [List.erase_cons]
      | cons b tl2 =>
        exfalso
        have := hinv.1
        rw [hl] at this
        simp at this

/-- After a tracked send into an empty live set, the invariant holds for
the recorded new id on success and for any reference on failure. -/
lemma opSend_tracked_inv (w : World) (h : w.live = []) :
    (∀ mid w2, opSend true w = (some mid, w2) → LiveInv (some mid) w2) ∧
    (∀ w2 (ref : Option ℕ), opSend true w = (none, w2) → LiveInv ref w2) := by
  constructor
  · intro mid w2 hs
    unfold opSend at hs
    dsimp only at hs
    by_cases hb : w.sendB w.sends = true
    · rw [if_pos hb] at hs
      injection hs with h1 h2
      injection h1 with h1'
      subst h1'
      subst h2
      constructor
      · simp [h]
      · intro id hid
        simp [h] at hid
        simp [hid]
    · rw [if_neg hb] at hs
      exact absurd hs (by simp)
  · intro w2 ref hs
    unfold opSend at hs
    dsimp only at hs
    by_cases hb : w.sendB w.sends = true
    · rw [if_pos hb] at hs
      exact absurd hs (by simp)
    · rw [if_neg hb] at hs
      injection hs with h1 h2
      subst h2
      exact liveInv_of_nil ref _ (by simp [h])

/-- One `sendProgressUpdate` call preserves the reporter invariant and the
delete behaviour (deletes assumed to go through). -/
lemma sendProgressUpdate_liveInv (t : ProgressTracker) (pd : Option Sample)
    (w : World) (hdel : ∀ n, w.delB n = true)
    (hinv : LiveInv t.lastProgressMessageId w) :
    LiveInv (t.sendProgressUpdate pd w).1.lastProgressMessageId
      (t.sendProgressUpdate pd w).2 ∧
    (t.sendProgressUpdate pd w).2.delB = w.delB := by
  unfold ProgressTracker.sendProgressUpdate ProgressTracker.sendAttempt
  cases hsrc : pdSource t pd with
  | none => exact ⟨hinv, rfl⟩
  | some s =>
    dsimp only
    by_cases h0 : s.progress = 0
    · rw [if_pos h0]
      exact ⟨hinv, rfl⟩
    · rw [if_neg h0]
      by_cases hg : (t.lastProgressMessage.isSome = true ∧
          |s.progress - t.lastProgressPercentage| < 1)
      · rw [if_pos hg]
        exact ⟨hinv, rfl⟩
      · rw [if_neg hg]
        have hnil := live_after_delete t.lastProgressMessageId w hdel hinv
        have hpres :
            (match t.lastProgressMessageId with
              | some mid => (opDelete mid w).2
              | none => w).delB = w.delB := by
          cases t.lastProgressMessageId with
          | none => rfl
          | some mid => exact (opDelete_preserves_delB mid w).1
        cases hsend : opSend true
            (match t.lastProgressMessageId with
              | some mid => (opDelete mid w).2
              | none => w) with
        | mk res w2 =>
          have hdb : w2.delB = w.delB := by
            have := (opSend_preserves true
              (match t.lastProgressMessageId with
                | some mid => (opDelete mid w).2
                | none => w)).1
            rw [hsend] at this
            rw [this, hpres]
          cases res with
          | some mid =>
            exact ⟨(opSend_tracked_inv _ hnil).1 mid w2 hsend, hdb⟩
          | none =>
            exact ⟨(opSend_tracked_inv _ hnil).2 w2 _ hsend, hdb⟩

/-- One `checkAndSendProgressUpdate` call preserves the invariant. -/
lemma checkAndSend_liveInv (t : ProgressTracker) (force : Bool) (now : ℕ)
    (pd : Option Sample) (w : World) (hdel : ∀ n, w.delB n = true)
    (hinv : LiveInv t.lastProgressMessageId w) :
    LiveInv (t.checkAndSendProgressUpdate force now pd w).1.lastProgressMessageId
      (t.checkAndSendProgressUpdate force now pd w).2 ∧
    (t.checkAndSendProgressUpdate force now pd w).2.delB = w.delB := by
  unfold ProgressTracker.checkAndSendProgressUpdate
  split
  · have h := sendProgressUpdate_liveInv t pd w hdel hinv
    exact ⟨h.1, h.2⟩
  · exact ⟨hinv, rfl⟩

/-- The standard tracker keeps the invariant across any call sequence. -/
lemma runStd_liveInv (ops : List (Bool × ℕ × Option Sample))
    (t : ProgressTracker) (w : World) (hdel : ∀ n, w.delB n = true)
    (hinv : LiveInv t.lastProgressMessageId w) :
    LiveInv (runStd t w ops).1.lastProgressMessageId (runStd t w ops).2 := by
  induction ops generalizing t w with
  | nil => exact hinv
  | cons op rest ih =>
    obtain ⟨force, now, pd⟩ := op
    have h := checkAndSend_liveInv t force now pd w hdel hinv
    exact ih _ _ (fun n => by rw [h.2]; exact hdel n) h.1

/-- One optimized `updateProgress` call preserves the invariant. -/
lemma updateProgress_liveInv (t : OptimizedProgressTracker) (pd : Sample)
    (now : ℕ) (w : World) (hdel : ∀ n, w.delB n = true)
    (hinv : LiveInv t.lastProgressMessageId w) :
    LiveInv (t.updateProgress pd now w).2.1.lastProgressMessageId
      (t.updateProgress pd now w).2.2 ∧
    (t.updateProgress pd now w).2.2.delB = w.delB := by
  unfold OptimizedProgressTracker.updateProgress
  split
  · exact ⟨hinv, rfl⟩
  · have hnil := live_after_delete t.lastProgressMessageId w hdel hinv
    have hpres :
        (match t.lastProgressMessageId with
          | some mid => (opDelete mid w).2
          | none => w).delB = w.delB := by
      cases t.lastProgressMessageId with
      | none => rfl
      | some mid => exact (opDelete_preserves_delB mid w).1
    dsimp only
    cases hsend : opSend true
        (match t.lastProgressMessageId with
          | some mid => (opDelete mid w).2
          | none => w) with
    | mk res w2 =>
      have hdb : w2.delB = w.delB := by
        have := (opSend_preserves true
          (match t.lastProgressMessageId with
            | some mid => (opDelete mid w).2
            | none => w)).1
        rw [hsend] at this
        rw [this, hpres]
      cases res with
      | some mid =>
        exact ⟨(opSend_tracked_inv _ hnil).1 mid w2 hsend, hdb⟩
      | none =>
        exact ⟨(opSend_tracked_inv _ hnil).2 w2 _ hsend, hdb⟩

/-- The optimized tracker keeps the invariant across any call sequence. -/
lemma runOpt_liveInv (ops : List (Sample × ℕ)) (t : OptimizedProgressTracker)
    (w : World) (hdel : ∀ n, w.delB n = true)
    (hinv : LiveInv t.lastProgressMessageId w) :
    LiveInv (runOpt t w ops).1.lastProgressMessageId (runOpt t w ops).2 := by
  induction ops generalizing t w with
  | nil => exact hinv
  | cons op rest ih =>
    obtain ⟨pd, now⟩ := op
    have h := updateProgress_liveInv t pd now w hdel hinv
    exact ih _ _ (fun n => by rw [h.2]; exact hdel n) h.1

/-- `start` establishes the invariant from an empty live set. -/
lemma start_liveInv (t : OptimizedProgressTracker) (w : World)
    (hnil : w.live = []) :
    LiveInv (t.start w).2.1.lastProgressMessageId (t.start w).2.2 := by
  unfold OptimizedProgressTracker.start
  cases hsend : opSend true w with
  | mk res w2 =>
    cases res with
    | some mid =>
      exact (opSend_tracked_inv w hnil).1 mid w2 hsend
    | none =>
      exact (opSend_tracked_inv w hnil).2 w2 _ hsend

/-- C8: with best-effort deletion going through, both reporters hold at
most one un-deleted live status message after any sequence of update
calls (the optimized one from `start` onwards), and every non-suppressed
update attempts the deletion of the previously recorded message. -/
theorem reporter_at_most_one_live_message :
    (∀ (ops : List (Bool × ℕ × Option Sample)) (t : ProgressTracker) (w : World),
      (∀ n, w.delB n = true) → LiveInv t.lastProgressMessageId w →
      (runStd t w ops).2.live.length ≤ 1 ∧
      LiveInv (runStd t w ops).1.lastProgressMessageId (runStd t w ops).2) ∧
    (∀ (ops : List (Sample × ℕ)) (total startTime : ℕ) (w : World),
      (∀ n, w.delB n = true) → w.live = [] →
      (runOpt ((OptimizedProgressTracker.mk0 total startTime).start w).2.1
          ((OptimizedProgressTracker.mk0 total startTime).start w).2.2 ops).2.live.length ≤ 1) ∧
    (∀ (t : ProgressTracker) (pd : Option Sample) (s : Sample) (w : World) (mid : ℕ),
      t.lastProgressMessageId = some mid →
      pdSource t pd = some s →
      ¬(s.progress = 0) →
      ¬(t.lastProgressMessage.isSome = true ∧
          |s.progress - t.lastProgressPercentage| < 1) →
      (t.sendAttempt pd w).2.dels = w.dels + 1) := by
  refine ⟨?_, ?_, ?_⟩
  · intro ops t w hdel hinv
    have h := runStd_liveInv ops t w hdel hinv
    exact ⟨h.1, h⟩
  · intro ops total startTime w hdel hnil
    have hstart := start_liveInv (OptimizedProgressTracker.mk0 total startTime) w hnil
    have hdel2 : ∀ n,
        ((OptimizedProgressTracker.mk0 total startTime).start w).2.2.delB n = true := by
      intro n
      unfold OptimizedProgressTracker.start
      cases hsend : opSend true w with
      | mk res w2 =>
        have := (opSend_preserves true w).1
        rw [hsend] at this
        cases res <;> simp only <;> rw [this] <;> exact hdel n
    exact (runOpt_liveInv ops _ _ hdel2 hstart).1
  · intro t pd s w mid hmid hsrc h0 hg
    unfold ProgressTracker.sendAttempt
    rw [hsrc]
    dsimp only
    rw [if_neg h0, if_neg hg, hmid]
    dsimp only
    cases hsend : opSend true (opDelete mid w).2 with
    | mk res w2 =>
      have hpres := (opSend_preserves true (opDelete mid w).2).2
      rw [hsend] at hpres
      cases res with
      | some newMid =>
        exact hpres.trans (opDelete_preserves_delB mid w).2
      | none =>
        exact hpres.trans (opDelete_preserves_delB mid w).2

/-- C8 witness: a concrete two-update run on the standard tracker, all
deletes succeeding, ends with at most one live message. -/
theorem reporter_at_most_one_live_message_witness :
    (runStd c7Tracker okWorld
      [(true, 6000, none), (true, 12000, none)]).2.live.length ≤ 1 ∧
    LiveInv (runStd c7Tracker okWorld
        [(true, 6000, none), (true, 12000, none)]).1.lastProgressMessageId
      (runStd c7Tracker okWorld [(true, 6000, none), (true, 12000, none)]).2 :=
  reporter_at_most_one_live_message.1
    [(true, 6000, none), (true, 12000, none)] c7Tracker okWorld
    (fun _ => rfl) ⟨by decide, by decide⟩

/-- Number of operations currently inside their permit. -/
def countRunning : List OpStatus → ℕ
  | [] => 0
  | s :: t => (match s with | .running => 1 | _ => 0) + countRunning t

lemma countRunning_replicate_pending (n : ℕ) :
    countRunning (List.replicate n .pending) = 0 := by
  induction n with
  | zero => rfl
  | succ k ih => simpa [List.replicate, countRunning] using ih

lemma countRunning_enter {l : List OpStatus} {i : ℕ}
    (h : l.get? i = some .pending) :
    countRunning (l.set i .running) = countRunning l + 1 := by
  induction l generalizing i with
  | nil => simp at h
  | cons a t ih =>
    cases i with
    | zero =>
      injection h with h'
      subst h'
      simp only [List.set, countRunning]
      omega
    | succ j =>
      simp only [List.get?] at h
      cases a <;> simp [countRunning, List.set, ih h] <;> omega

lemma countRunning_leave {l : List OpStatus} {i : ℕ}
    (h : l.get? i = some .running) :
    countRunning (l.set i .done) + 1 = countRunning l := by
  induction l generalizing i with
  | nil => simp at h
  | cons a t ih =>
    cases i with
    | zero =>
      injection h with h'
      subst h'
      simp only [List.set, countRunning]
      omega
    | succ j =>
      simp only [List.get?] at h
      cases a <;> simp [countRunning, List.set, ← ih h] <;> omega

/-- C6: the `activeOperations` counter always equals the number of
operations currently inside `throttleOperation`'s permit, never exceeds
the ceiling (constructed as 10), and returns to zero once no operation is
running — the `finally` decrement fires for throwing and for returning
operations alike, so permits are always released. -/
theorem throttle_ceiling_invariant :
    defaultMaxConcurrency = 10 ∧
    (∀ (maxC n : ℕ) (s : ThrottleState), ThrottleReach maxC n s →
      s.active = countRunning s.ops ∧ s.active ≤ maxC) ∧
    (∀ (maxC n : ℕ) (s : ThrottleState), ThrottleReach maxC n s →
      countRunning s.ops = 0 → s.active = 0) := by
  have main : ∀ (maxC n : ℕ) (s : ThrottleState), ThrottleReach maxC n s →
      s.active = countRunning s.ops ∧ s.active ≤ maxC := by
    intro maxC n s hreach
    induction hreach with
    | init =>
      constructor
      · simp [ThrottleState.init, countRunning_replicate_pending]
      · simp [ThrottleState.init]
    | step hr hstep ih =>
      cases hstep with
      | enter i hi hlt =>
        obtain ⟨ih1, ih2⟩ := ih
        have hc := countRunning_enter hi
        constructor
        · dsimp only
          omega
        · dsimp only
          omega
      | leave i threw hi =>
        obtain ⟨ih1, ih2⟩ := ih
        have hc := countRunning_leave hi
        constructor
        · dsimp only
          omega
        · dsimp only
          omega
  exact ⟨rfl, main, fun maxC n s hreach h0 => by
    have := (main maxC n s hreach).1
    omega⟩

/-- The state after one operation entered and left the permit under
ceiling 1. -/
def throttleDemo : ThrottleState :=
  { active := 0 + 1 - 1,
    ops := ((ThrottleState.init 1).ops.set 0 .running).set 0 .done }

/-- C6 witness: the invariant at a concrete reachable state (one
operation admitted under ceiling 1, then finished with a throw). -/
theorem throttle_ceiling_invariant_witness :
    throttleDemo.active = countRunning throttleDemo.ops ∧
    throttleDemo.active ≤ 1 :=
  throttle_ceiling_invariant.2.1 1 1 throttleDemo
    (ThrottleReach.step
      (ThrottleReach.step ThrottleReach.init
        (ThrottleStep.enter _ 0 rfl (by decide)))
      (ThrottleStep.leave _ 0 true rfl))

instance : IsTotal PreparedItem (fun a b => a.index ≤ b.index) :=
  ⟨fun a b => Nat.le_total a.index b.index⟩

instance : IsTrans PreparedItem (fun a b => a.index ≤ b.index) :=
  ⟨fun _ _ _ hab hbc => Nat.le_trans hab hbc⟩

/-- A weakly sorted permutation of a strictly sorted list is that list. -/
lemma sorted_perm_unique :
    ∀ (l1 l2 : List PreparedItem), l2.Perm l1 →
      List.Pairwise (fun a b => a.index < b.index) l1 →
      List.Sorted (fun a b => a.index ≤ b.index) l2 →
      l2 = l1 := by
  intro l1
  induction l1 with
  | nil =>
    intro l2 hp _ _
    exact hp.eq_nil
  | cons x t ih =>
    intro l2 hp hpw hs
    cases l2 with
    | nil =>
      have := hp.length_eq
      simp at this
    | cons y s =>
      have hyx : y = x := by
        by_contra hne
        have hy_mem : y ∈ x :: t := hp.subset (List.mem_cons_self y s)
        have hy_t : y ∈ t := by
          cases List.mem_cons.1 hy_mem with
          | inl h => exact absurd h hne
          | inr h => exact h
        have hxy_lt : x.index < y.index := (List.pairwise_cons.1 hpw).1 y hy_t
        have hx_mem : x ∈ y :: s := hp.symm.subset (List.mem_cons_self x t)
        have hx_s : x ∈ s := by
          cases List.mem_cons.1 hx_mem with
          | inl h => exact absurd h.symm hne
          | inr h => exact h
        have hyx_le : y.index ≤ x.index := (List.sorted_cons.1 hs).1 x hx_s
        omega
      subst hyx
      have hp' : s.Perm t := hp.cons_inv
      rw [ih s hp' (List.pairwise_cons.1 hpw).2 (List.sorted_cons.1 hs).2]

lemma prepareFrom_index_ge (fetch : ℕ → Option ℕ) :
    ∀ (vs : List VideoItem) (i : ℕ) (x : PreparedItem),
      x ∈ prepareFrom fetch i vs → i ≤ x.index := by
  intro vs
  induction vs with
  | nil =>
    intro i x hx
    simp [prepareFrom] at hx
  | cons v rest ih =>
    intro i x hx
    cases List.mem_cons.1 hx with
    | inl h => subst h; exact le_refl i
    | inr h => exact Nat.le_of_succ_le (ih (i + 1) x h)

/-- Prepared records carry strictly increasing original indices. -/
lemma prepareFrom_pairwise (fetch : ℕ → Option ℕ) :
    ∀ (vs : List VideoItem) (i : ℕ),
      List.Pairwise (fun a b => a.index < b.index) (prepareFrom fetch i vs) := by
  intro vs
  induction vs with
  | nil => intro i; simp [prepareFrom]
  | cons v rest ih =>
    intro i
    refine List.pairwise_cons.2 ⟨fun x hx => ?_, ih (i + 1)⟩
    exact Nat.lt_of_succ_le (prepareFrom_index_ge fetch rest (i + 1) x hx)

lemma prepareFrom_map_index (fetch : ℕ → Option ℕ) :
    ∀ (vs : List VideoItem) (i : ℕ),
      (prepareFrom fetch i vs).map (fun d => d.index) = List.range' i vs.length := by
  intro vs
  induction vs with
  | nil => intro i; rfl
  | cons v rest ih =>
    intro i
    simp [prepareFrom, List.range', ih (i + 1)]

lemma prepareFrom_length (fetch : ℕ → Option ℕ) :
    ∀ (vs : List VideoItem) (i : ℕ),
      (prepareFrom fetch i vs).length = vs.length := by
  intro vs
  induction vs with
  | nil => intro i; rfl
  | cons v rest ih => intro i; simp [prepareFrom, ih (i + 1)]

/-- Sorting the prepared records by index recovers the input order,
whatever the completion order was. -/
lemma sortByIndex_of_perm (fetch : ℕ → Option ℕ) (vs : List VideoItem)
    (data : List PreparedItem) (h : data.Perm (prepareFrom fetch 0 vs)) :
    sortByIndex data = prepareFrom fetch 0 vs :=
  sorted_perm_unique (prepareFrom fetch 0 vs) (sortByIndex data)
    ((List.perm_insertionSort _ data).trans h)
    (prepareFrom_pairwise fetch vs 0)
    (List.sorted_insertionSort _ data)

/-- C9: whatever order the concurrent renders resolve in, transmission
follows ascending original index (equal to the input order), every item is
transmitted, and an item whose thumbnail fetch failed goes out as a
text-only message instead of being dropped. -/
theorem batch_dispatch_ordered_and_total :
    ∀ (fetch : ℕ → Option ℕ) (vs : List VideoItem) (data : List PreparedItem),
      data.Perm (prepareFrom fetch 0 vs) →
      transmitResults data = sendLoop (prepareFrom fetch 0 vs) ∧
      (sortByIndex data).map (fun d => d.index) = List.range vs.length ∧
      (transmitResults data).length = vs.length ∧
      (∀ (k : ℕ) (item : PreparedItem),
        (prepareFrom fetch 0 vs).get? k = some item →
        item.thumbnailBuffer = none →
        (transmitResults data).get? k = some (.text item.videoText)) := by
  intro fetch vs data h
  have hsort := sortByIndex_of_perm fetch vs data h
  have htrans : transmitResults data = sendLoop (prepareFrom fetch 0 vs) := by
    unfold transmitResults
    rw [hsort]
  refine ⟨htrans, ?_, ?_, ?_⟩
  · rw [hsort, prepareFrom_map_index, List.range_eq_range']
  · rw [htrans]
    unfold sendLoop
    rw [List.length_map, prepareFrom_length]
  · intro k item hk hthumb
    rw [htrans]
    unfold sendLoop
    rw [List.get?_map, hk]
    simp [hthumb]

/-- The renders of the witness scenario, resolved in reverse order. -/
def demoPrepared : List PreparedItem :=
  [⟨1, str "b", none⟩, ⟨0, str "a", none⟩]

/-- C9 witness: two items prepared in reverse completion order with both
thumbnail fetches failing are transmitted in input order as text
messages. -/
theorem batch_dispatch_ordered_and_total_witness :
    (transmitResults demoPrepared).get? 0 = some (.text (str "a")) :=
  (batch_dispatch_ordered_and_total (fun _ => none)
      [⟨str "a", 5⟩, ⟨str "b", 6⟩] demoPrepared (by decide)).2.2.2
    0 ⟨0, str "a", none⟩ (by decide) rfl

end WABot
